import Mathlib

/-!
Verification of the client-side logic of a static portfolio website:
the contact-form validator (`validateEmail`, `validateRequired`,
`validateField`, `validateForm`) and the portfolio modal controller
(`portfolioData`, `openPortfolioModal`, `closeModal` and their event
handlers).  The JavaScript is embedded shallowly: DOM state that the
code reads or writes (form-group error class and message text, the
modal overlay's slots, the `active` class, the body `overflow` style)
is made explicit as record fields, and every function is a pure Lean
function mirroring the source line by line.
-/

/-- The character class `\s` of JavaScript regular expressions, and the
set of characters removed by `String.prototype.trim`: ECMAScript
WhiteSpace (TAB, VT, FF, SP, NBSP, ZWNBSP and the Unicode
space-separator category) together with the line terminators
(LF, CR, LS, PS). -/
def isJsWhitespaceChar (c : Char) : Bool :=
  c == ' ' || c == '\t' || c == '\n' || c == '\r' ||
  c.toNat == 0x000b || c.toNat == 0x000c || c.toNat == 0x00a0 ||
  c.toNat == 0x1680 ||
  (decide (0x2000 ≤ c.toNat) && decide (c.toNat ≤ 0x200a)) ||
  c.toNat == 0x2028 || c.toNat == 0x2029 || c.toNat == 0x202f ||
  c.toNat == 0x205f || c.toNat == 0x3000 || c.toNat == 0xfeff

/-- The character class `[^\s@]` used three times in the email regex:
any character that is neither JavaScript whitespace nor `@`. -/
def emailCharClass (c : Char) : Bool :=
  !(isJsWhitespaceChar c) && !(c == '@')

/-- One token of the (fixed) regular expression
`/^[^\s@]+@[^\s@]+\.[^\s@]+$/`: either a literal character or a
one-or-more repetition of a character class. -/
inductive RegexToken where
  | lit (c : Char)
  | plus (p : Char → Bool)

/-- Backtracking matcher for a `plus` token followed by a continuation
`k` matching the rest of the pattern: consume one or more characters
satisfying `p`, trying every split (exactly the backtracking a regex
engine performs for `X+`). -/
def matchPlusAux (p : Char → Bool) (k : List Char → Bool) : List Char → Bool
  | [] => false
  | x :: xs => p x && (k xs || matchPlusAux p k xs)

/-- Anchored matcher for a token sequence against a whole character
list (the regex is anchored with `^` and `$`, so `test` succeeds iff
the full string matches the token sequence). -/
def matchSeq : List RegexToken → List Char → Bool
  | [], l => l.isEmpty
  | RegexToken.lit c :: rs, l =>
    match l with
    | [] => false
    | x :: xs => x == c && matchSeq rs xs
  | RegexToken.plus p :: rs, l => matchPlusAux p (matchSeq rs) l

/-- The token sequence of `/^[^\s@]+@[^\s@]+\.[^\s@]+$/` from
`validateEmail`. -/
def emailRegex : List RegexToken :=
  [RegexToken.plus emailCharClass, RegexToken.lit '@',
   RegexToken.plus emailCharClass, RegexToken.lit '.',
   RegexToken.plus emailCharClass]

/-- `validateEmail(email)`: `emailRegex.test(email)` with
`const emailRegex = /^[^\s@]+@[^\s@]+\.[^\s@]+$/`. -/
def validateEmail (email : String) : Bool :=
  matchSeq emailRegex email.data

/-- `value.trim()` of JavaScript on the character list of a string:
strip leading and trailing whitespace (per the ECMAScript trim set). -/
def jsTrim (l : List Char) : List Char :=
  ((l.dropWhile isJsWhitespaceChar).reverse.dropWhile isJsWhitespaceChar).reverse

/-- `validateRequired(value)`: `value.trim().length > 0`. -/
def validateRequired (value : String) : Bool :=
  decide (0 < (jsTrim value.data).length)

/-- The error-display state of one `.form-group` container: whether the
`error` class is present and the text content of its `.error-message`
slot.  `clearError` resets it to `⟨false, ""⟩`; `showError msg` sets it
to `⟨true, msg⟩`. -/
structure FormGroup where
  error : Bool
  errorMessage : String
deriving DecidableEq, Repr

/-- One form input as `validateField` sees it: its element tag
(`input` or `textarea`), its `type` property, whether it has the
`required` attribute, and its current value. -/
structure FormField where
  tag : String
  type : String
  required : Bool
  value : String
deriving DecidableEq, Repr

/-- `validateField(field)`: clear the enclosing group's previous error;
if the field is required and `validateRequired` fails, show
"This field is required" and return false; else if the field is an
email field with non-blank value failing `validateEmail`, show
"Please enter a valid email address" and return false; else return
true.  The returned pair is (boolean result, resulting group state). -/
def validateField (field : FormField) : Bool × FormGroup :=
  if field.required && !(validateRequired field.value) then
    (false, ⟨true, "This field is required"⟩)
  else if field.type == "email" && decide (0 < (jsTrim field.value.data).length)
      && !(validateEmail field.value) then
    (false, ⟨true, "Please enter a valid email address"⟩)
  else
    (true, ⟨false, ""⟩)

/-- Membership in the selector
`input[required], textarea[required], input[type="email"]` used by
`validateForm`. -/
def isValidatedField (f : FormField) : Bool :=
  (f.tag == "input" && f.required) || (f.tag == "textarea" && f.required) ||
  (f.tag == "input" && f.type == "email")

/-- The node list `form.querySelectorAll('input[required],
textarea[required], input[type="email"]')`: the form's fields, in
document order, that match the selector (each field listed once). -/
def formValidationFields (form : List FormField) : List FormField :=
  form.filter isValidatedField

/-- The `fields.forEach` loop of `validateForm`: `acc` is the `isValid`
variable (set to false whenever `validateField` fails, never
short-circuiting the calls).  Also returns the list of group states
produced by each `validateField` call, in order. -/
def validateFormAux : List FormField → Bool → Bool × List FormGroup
  | [], acc => (acc, [])
  | f :: fs, acc =>
    let r := validateField f
    let rest := validateFormAux fs (if r.1 then acc else false)
    (rest.1, r.2 :: rest.2)

/-- `validateForm(form)`: run `validateField` on every selected field,
starting from `isValid = true`. -/
def validateForm (form : List FormField) : Bool × List FormGroup :=
  validateFormAux (formValidationFields form) true

/-- The character list strictly after the first `'@'` of `l` (the whole
list drops away when there is no `'@'`).  Used to state "lacks a `.`
after the (single) `@`". -/
def afterFirstAt (l : List Char) : List Char :=
  (l.dropWhile (fun c => !(c == '@'))).tail

/-- One entry of the static `portfolioData` object: image path, image
alt text, title, short description, detailed description. -/
structure PortfolioRecord where
  image : String
  imageAlt : String
  title : String
  description : String
  detailedDescription : String
deriving DecidableEq, Repr

/-- The `'Project One'` entry of the `portfolioData` object. -/
def projectOneRecord : PortfolioRecord :=
  ⟨"images/project1.jpg", "Screenshot of Project 1", "Project One",
    "A responsive web application built with modern technologies.",
    "This project showcases a fully responsive web application that adapts seamlessly to different screen sizes. Built using HTML5, CSS3, and JavaScript, it features smooth animations, intuitive navigation, and optimized performance. The application demonstrates best practices in web development including semantic HTML, accessibility features, and clean code architecture."⟩

/-- The `'Project Two'` entry of the `portfolioData` object. -/
def projectTwoRecord : PortfolioRecord :=
  ⟨"images/project2.jpg", "Screenshot of Project 2", "Project Two",
    "An interactive website featuring smooth animations and user-friendly design.",
    "An engaging interactive website that combines beautiful design with functional user experience. Features include scroll-triggered animations, dynamic content loading, and responsive layouts. The project emphasizes user engagement through thoughtful interactions and visual feedback, creating an immersive browsing experience."⟩

/-- The `'Project Three'` entry of the `portfolioData` object. -/
def projectThreeRecord : PortfolioRecord :=
  ⟨"images/project3.jpg", "Screenshot of Project 3", "Project Three",
    "A portfolio website showcasing creative work and design skills.",
    "A comprehensive portfolio website designed to showcase creative work and professional achievements. The site features a clean, modern design with emphasis on visual presentation. Includes project galleries, detailed case studies, and contact integration. Built with performance and accessibility in mind, ensuring fast load times and compatibility across all devices."⟩

/-- The static `portfolioData` lookup table of `portfolio.js`, keyed by
project title. -/
def portfolioData (title : String) : Option PortfolioRecord :=
  if title == "Project One" then some projectOneRecord
  else if title == "Project Two" then some projectTwoRecord
  else if title == "Project Three" then some projectThreeRecord
  else none

/-- The DOM state touched by the modal controller: the overlay's slot
contents (`#modal-image` src and alt, `#modal-title`,
`#modal-description`, `#modal-details`), whether the overlay has the
`active` class, whether `document.body.style.overflow` is `'hidden'`
(versus `''`), and whether the `.modal-close` button holds keyboard
focus. -/
structure ModalState where
  imageSrc : String
  imageAlt : String
  titleText : String
  descriptionText : String
  detailsText : String
  active : Bool
  bodyOverflowHidden : Bool
  focusOnCloseButton : Bool
deriving DecidableEq, Repr

/-- `openPortfolioModal(item)` after the title has been read from the
item's `.portfolio-title` element: look the title up in
`portfolioData`; if found, populate the overlay slots, add the
`active` class, set `body.style.overflow = 'hidden'` and focus the
close button; otherwise do nothing. -/
def openPortfolioModal (projectTitle : String) (s : ModalState) : ModalState :=
  match portfolioData projectTitle with
  | some d =>
    ⟨d.image, d.imageAlt, d.title, d.description, d.detailedDescription,
      true, true, true⟩
  | none => s

/-- `closeModal()`: remove the `active` class and restore
`body.style.overflow = ''`.  (The focus-restoration step re-focuses the
portfolio item that already holds focus, when one does, so it never
changes which element is focused; the focus field is untouched.) -/
def closeModal (s : ModalState) : ModalState :=
  ⟨s.imageSrc, s.imageAlt, s.titleText, s.descriptionText, s.detailsText,
    false, false, s.focusOnCloseButton⟩

/-- The click handler installed on each portfolio item: always opens
the modal on the item's displayed title. -/
def portfolioItemClick (itemTitle : String) (s : ModalState) : ModalState :=
  openPortfolioModal itemTitle s

/-- The keydown handler installed on each portfolio item: opens the
modal on the item's displayed title when the key is `Enter` or `' '`,
otherwise does nothing. -/
def portfolioItemKeydown (key : String) (itemTitle : String) (s : ModalState) :
    ModalState :=
  if key == "Enter" || key == " " then openPortfolioModal itemTitle s else s

/-- The document-level keydown handler: `Escape` closes the modal, but
only when the overlay currently has the `active` class. -/
def documentKeydown (key : String) (s : ModalState) : ModalState :=
  if key == "Escape" && s.active then closeModal s else s

/-- The overlay's state as the page loads: empty slots, inactive, no
scroll suppression, focus elsewhere. -/
def initialModalState : ModalState :=
  ⟨"", "", "", "", "", false, false, false⟩

/-- A representative state with the overlay open: the overlay carries
the `active` class and background scrolling is suppressed. -/
def activeModalState : ModalState :=
  ⟨"images/project1.jpg", "Screenshot of Project 1", "Project One",
    "A responsive web application built with modern technologies.", "",
    true, true, true⟩

/-- The sample contact form of the spec: required name "Alice",
required email "alice@example.com", required message "Hello". -/
def demoContactForm : List FormField :=
  [⟨"input", "text", true, "Alice"⟩,
   ⟨"input", "email", true, "alice@example.com"⟩,
   ⟨"textarea", "text", true, "Hello"⟩]

theorem matchPlusAux_eq_true_iff (p : Char → Bool) (k : List Char → Bool)
    (l : List Char) :
    matchPlusAux p k l = true ↔
      ∃ a b, l = a ++ b ∧ a ≠ [] ∧ (∀ x ∈ a, p x = true) ∧ k b = true := by
  induction l with
  | nil =>
    simp only [matchPlusAux]
    constructor
    · intro h; exact absurd h (by simp)
    · rintro ⟨a, b, h, hne, -, -⟩
      exact absurd (List.append_eq_nil.mp h.symm).1 hne
  | cons x xs ih =>
    simp only [matchPlusAux, Bool.and_eq_true, Bool.or_eq_true]
    constructor
    · rintro ⟨hp, h | h⟩
      · exact ⟨[x], xs, rfl, by simp, by simpa using hp, h⟩
      · obtain ⟨a, b, heq, hne, hall, hk⟩ := ih.mp h
        refine ⟨x :: a, b, by simp [heq], by simp, ?_, hk⟩
        intro y hy
        rcases List.mem_cons.mp hy with hy | hy
        · exact hy ▸ hp
        · exact hall y hy
    · rintro ⟨a, b, heq, hne, hall, hk⟩
      cases a with
      | nil => exact absurd rfl hne
      | cons y a =>
        rw [List.cons_append] at heq
        obtain ⟨rfl, rfl⟩ : x = y ∧ xs = a ++ b :=
          ⟨(List.cons.injEq _ _ _ _ ▸ heq).1, (List.cons.injEq _ _ _ _ ▸ heq).2⟩
        refine ⟨hall x (List.mem_cons_self _ _), ?_⟩
        cases a with
        | nil => exact Or.inl (by simpa using hk)
        | cons z a =>
          refine Or.inr (ih.mpr ⟨z :: a, b, rfl, by simp, ?_, hk⟩)
          intro y hy
          exact hall y (List.mem_cons_of_mem _ hy)

theorem matchSeq_nil_eq_true_iff (l : List Char) :
    matchSeq [] l = true ↔ l = [] := by
  cases l <;> simp [matchSeq]

theorem matchSeq_lit_eq_true_iff (c : Char) (rs : List RegexToken)
    (l : List Char) :
    matchSeq (RegexToken.lit c :: rs) l = true ↔
      ∃ xs, l = c :: xs ∧ matchSeq rs xs = true := by
  cases l with
  | nil => simp [matchSeq]
  | cons x xs =>
    simp only [matchSeq, Bool.and_eq_true, beq_iff_eq]
    constructor
    · rintro ⟨rfl, h⟩; exact ⟨xs, rfl, h⟩
    · rintro ⟨ys, heq, h⟩
      obtain ⟨rfl, rfl⟩ : x = c ∧ xs = ys :=
        ⟨(List.cons.injEq _ _ _ _ ▸ heq).1, (List.cons.injEq _ _ _ _ ▸ heq).2⟩
      exact ⟨rfl, h⟩

theorem matchSeq_plus_eq (p : Char → Bool) (rs : List RegexToken)
    (l : List Char) :
    matchSeq (RegexToken.plus p :: rs) l = matchPlusAux p (matchSeq rs) l := rfl

/-- Full-match characterization of the email regular expression: the
string splits as `a ++ '@' ++ b ++ '.' ++ c` with `a`, `b`, `c`
non-empty and made of `[^\s@]` characters only. -/
theorem validateEmail_eq_true_iff (s : String) :
    validateEmail s = true ↔
      ∃ a b c : List Char,
        s.data = a ++ '@' :: (b ++ '.' :: c) ∧
        a ≠ [] ∧ b ≠ [] ∧ c ≠ [] ∧
        (∀ x ∈ a, emailCharClass x = true) ∧
        (∀ x ∈ b, emailCharClass x = true) ∧
        (∀ x ∈ c, emailCharClass x = true) := by
  unfold validateEmail emailRegex
  rw [matchSeq_plus_eq, matchPlusAux_eq_true_iff]
  constructor
  · rintro ⟨a, r1, heq1, ha, halla, h1⟩
    obtain ⟨r2, rfl, h2⟩ := (matchSeq_lit_eq_true_iff _ _ _).mp h1
    rw [matchSeq_plus_eq, matchPlusAux_eq_true_iff] at h2
    obtain ⟨b, r3, rfl, hb, hallb, h3⟩ := h2
    obtain ⟨r4, rfl, h4⟩ := (matchSeq_lit_eq_true_iff _ _ _).mp h3
    rw [matchSeq_plus_eq, matchPlusAux_eq_true_iff] at h4
    obtain ⟨c, r5, rfl, hc, hallc, h5⟩ := h4
    obtain rfl := (matchSeq_nil_eq_true_iff _).mp h5
    exact ⟨a, b, c, by simpa using heq1, ha, hb, hc, halla, hallb, hallc⟩
  · rintro ⟨a, b, c, heq, ha, hb, hc, halla, hallb, hallc⟩
    refine ⟨a, '@' :: (b ++ '.' :: c), heq, ha, halla, ?_⟩
    refine (matchSeq_lit_eq_true_iff _ _ _).mpr ⟨b ++ '.' :: c, rfl, ?_⟩
    rw [matchSeq_plus_eq, matchPlusAux_eq_true_iff]
    refine ⟨b, '.' :: c, rfl, hb, hallb, ?_⟩
    refine (matchSeq_lit_eq_true_iff _ _ _).mpr ⟨c, rfl, ?_⟩
    rw [matchSeq_plus_eq, matchPlusAux_eq_true_iff]
    exact ⟨c, [], by simp, hc, hallc, by simp [matchSeq]⟩

theorem emailCharClass_spec (x : Char) (h : emailCharClass x = true) :
    isJsWhitespaceChar x = false ∧ x ≠ '@' := by
  simp only [emailCharClass, Bool.and_eq_true, Bool.not_eq_true',
    beq_eq_false_iff_ne, ne_eq] at h
  exact ⟨h.1, h.2⟩

theorem emailCharClass_of (x : Char) (hws : isJsWhitespaceChar x = false)
    (hat : x ≠ '@') : emailCharClass x = true := by
  simp [emailCharClass, hws, hat]

theorem dropWhile_append_of_all {p : Char → Bool} :
    ∀ (a l : List Char), (∀ x ∈ a, p x = true) →
      List.dropWhile p (a ++ l) = List.dropWhile p l := by
  intro a l h
  induction a with
  | nil => rfl
  | cons x xs ih =>
    have hx : p x = true := h x (List.mem_cons_self _ _)
    rw [List.cons_append, List.dropWhile_cons_of_pos hx]
    exact ih (fun y hy => h y (List.mem_cons_of_mem _ hy))

/-- Claim C1: `validateEmail` returns true on every string of the form
`local@domain.tld` whose three parts are non-empty and free of
whitespace and `@`; and it returns false on every string with no `@`,
with two or more `@`, with any whitespace character, or whose (single)
`@` is followed by no `.`. -/
theorem claim_C1_validateEmail_shape :
    (∀ lo d t : List Char, lo ≠ [] → d ≠ [] → t ≠ [] →
      (∀ x ∈ lo ++ d ++ t, isJsWhitespaceChar x = false ∧ x ≠ '@') →
      validateEmail (String.mk (lo ++ '@' :: (d ++ '.' :: t))) = true) ∧
    (∀ s : String,
      (s.data.count '@' = 0 ∨ 2 ≤ s.data.count '@' ∨
        s.data.any isJsWhitespaceChar = true ∨
        (s.data.count '@' = 1 ∧ '.' ∉ afterFirstAt s.data)) →
      validateEmail s = false) := by
  constructor
  · intro lo d t h1 h2 h3 hall
    refine (validateEmail_eq_true_iff _).mpr ⟨lo, d, t, rfl, h1, h2, h3, ?_, ?_, ?_⟩
    · intro x hx
      have h := hall x (List.mem_append_left t (List.mem_append_left d hx))
      exact emailCharClass_of x h.1 h.2
    · intro x hx
      have h := hall x (List.mem_append_left t (List.mem_append_right lo hx))
      exact emailCharClass_of x h.1 h.2
    · intro x hx
      have h := hall x (List.mem_append_right (lo ++ d) hx)
      exact emailCharClass_of x h.1 h.2
  · intro s hdisj
    by_contra hne
    have hT : validateEmail s = true := by
      cases hts : validateEmail s with
      | false => exact absurd hts hne
      | true => rfl
    obtain ⟨a, b, c, heq, ha, hb, hc, halla, hallb, hallc⟩ :=
      (validateEmail_eq_true_iff s).mp hT
    have hac : a.count '@' = 0 :=
      List.count_eq_zero.mpr (fun hm => (emailCharClass_spec _ (halla _ hm)).2 rfl)
    have hbc : b.count '@' = 0 :=
      List.count_eq_zero.mpr (fun hm => (emailCharClass_spec _ (hallb _ hm)).2 rfl)
    have hcc : c.count '@' = 0 :=
      List.count_eq_zero.mpr (fun hm => (emailCharClass_spec _ (hallc _ hm)).2 rfl)
    have hcount : s.data.count '@' = 1 := by
      rw [heq]
      simp [List.count_append, List.count_cons, hac, hbc, hcc]
    have hwsf : ∀ x ∈ s.data, isJsWhitespaceChar x = false := by
      intro x hx
      rw [heq] at hx
      rcases List.mem_append.mp hx with hx | hx
      · exact (emailCharClass_spec _ (halla _ hx)).1
      · rcases List.mem_cons.mp hx with rfl | hx
        · decide
        · rcases List.mem_append.mp hx with hx | hx
          · exact (emailCharClass_spec _ (hallb _ hx)).1
          · rcases List.mem_cons.mp hx with rfl | hx
            · decide
            · exact (emailCharClass_spec _ (hallc _ hx)).1
    have hdot : '.' ∈ afterFirstAt s.data := by
      rw [heq, afterFirstAt]
      rw [dropWhile_append_of_all a _ ?_]
      · rw [List.dropWhile_cons_of_neg (by decide)]
        exact List.mem_append_right b (List.mem_cons_self _ _)
      · intro x hx
        have := (emailCharClass_spec _ (halla _ hx)).2
        simpa using this
    rcases hdisj with h0 | h2 | hw | ⟨-, hnd⟩
    · omega
    · omega
    · obtain ⟨x, hx, hpx⟩ := List.any_eq_true.mp hw
      rw [hwsf x hx] at hpx
      exact absurd hpx (by simp)
    · exact hnd hdot

theorem claim_C1_witness :
    validateEmail (String.mk (['a'] ++ '@' :: (['b'] ++ '.' :: ['c']))) = true ∧
    validateEmail "alice.example.com" = false := by
  constructor
  · exact claim_C1_validateEmail_shape.1 ['a'] ['b'] ['c']
      (by decide) (by decide) (by decide) (by decide)
  · exact claim_C1_validateEmail_shape.2 "alice.example.com" (Or.inl (by decide))

/-- Claim C2: on a blank value (empty or whitespace-only),
`validateField` fails with message "This field is required" exactly
when the field is required, and succeeds with a cleared group when it
is not. -/
theorem claim_C2_required_blank (f : FormField)
    (hblank : jsTrim f.value.data = []) :
    (validateField f = (false, ⟨true, "This field is required"⟩) ↔
      f.required = true) ∧
    (f.required = false → validateField f = (true, ⟨false, ""⟩)) := by
  have hvr : validateRequired f.value = false := by
    simp [validateRequired, hblank]
  have hlen : (jsTrim f.value.data).length = 0 := by rw [hblank]; rfl
  constructor
  · constructor
    · intro h
      cases hreq : f.required with
      | true => rfl
      | false =>
        rw [validateField, hreq, hvr] at h
        simp [hlen] at h
    · intro hreq
      rw [validateField, hreq, hvr]
      simp
  · intro hreq
    rw [validateField, hreq, hvr]
    simp [hlen]

theorem claim_C2_witness :
    validateField ⟨"input", "text", true, "   "⟩ =
      (false, ⟨true, "This field is required"⟩) ∧
    validateField ⟨"input", "text", false, ""⟩ = (true, ⟨false, ""⟩) := by
  constructor
  · exact (claim_C2_required_blank ⟨"input", "text", true, "   "⟩ (by decide)).1.mpr rfl
  · exact (claim_C2_required_blank ⟨"input", "text", false, ""⟩ (by decide)).2 rfl

/-- Claim C3: an email-typed field with non-blank, shape-invalid value
fails with message "Please enter a valid email address"; an email-typed
field that is blank and not required is valid with no error. -/
theorem claim_C3_email_validation :
    (∀ f : FormField, f.type = "email" → jsTrim f.value.data ≠ [] →
      validateEmail f.value = false →
      validateField f = (false, ⟨true, "Please enter a valid email address"⟩)) ∧
    (∀ f : FormField, f.type = "email" → f.required = false →
      jsTrim f.value.data = [] →
      validateField f = (true, ⟨false, ""⟩)) := by
  constructor
  · intro f htype hnb hbad
    have hlen : 0 < (jsTrim f.value.data).length := List.length_pos.mpr hnb
    have hvr : validateRequired f.value = true := by
      simp [validateRequired, hlen]
    rw [validateField, hvr, htype, hbad]
    simp [hlen]
  · intro f htype hreq hblank
    have hvr : validateRequired f.value = false := by
      simp [validateRequired, hblank]
    have hlen : (jsTrim f.value.data).length = 0 := by rw [hblank]; rfl
    rw [validateField, hreq, hvr]
    simp [hlen]

theorem claim_C3_witness :
    validateField ⟨"input", "email", false, "not-an-email"⟩ =
      (false, ⟨true, "Please enter a valid email address"⟩) ∧
    validateField ⟨"input", "email", false, ""⟩ = (true, ⟨false, ""⟩) := by
  constructor
  · exact claim_C3_email_validation.1 ⟨"input", "email", false, "not-an-email"⟩
      rfl (by decide) (by decide)
  · exact claim_C3_email_validation.2 ⟨"input", "email", false, ""⟩
      rfl rfl (by decide)

theorem validateFormAux_fst (fs : List FormField) (acc : Bool) :
    (validateFormAux fs acc).1 = (acc && fs.all (fun f => (validateField f).1)) := by
  induction fs generalizing acc with
  | nil => simp [validateFormAux]
  | cons f fs ih =>
    simp only [validateFormAux, List.all_cons]
    rw [ih]
    cases hv : (validateField f).1 <;> cases acc <;> simp [hv]

theorem validateFormAux_snd (fs : List FormField) (acc : Bool) :
    (validateFormAux fs acc).2 = fs.map (fun f => (validateField f).2) := by
  induction fs generalizing acc with
  | nil => rfl
  | cons f fs ih => simp [validateFormAux, ih]

/-- Claim C4: `validateForm` is true exactly when `validateField` is
true on every selected (required or email-typed) field, and the loop is
not short-circuited: the group state of every selected field is the one
`validateField` computes for it, regardless of earlier failures. -/
theorem claim_C4_validateForm_conjunction (form : List FormField) :
    ((validateForm form).1 = true ↔
      ∀ f ∈ formValidationFields form, (validateField f).1 = true) ∧
    (validateForm form).2 =
      (formValidationFields form).map (fun f => (validateField f).2) := by
  constructor
  · rw [validateForm, validateFormAux_fst]
    simp [List.all_eq_true]
  · rw [validateForm, validateFormAux_snd]

theorem claim_C4_witness : (validateForm demoContactForm).1 = true :=
  (claim_C4_validateForm_conjunction demoContactForm).1.mpr (by decide)

/-- Claim C5: when the title is present in `portfolioData`, opening the
modal sets every overlay slot from the record, makes the overlay
active, suppresses page scroll, and focuses the close button —
regardless of the previous overlay state. -/
theorem claim_C5_open_populates (title : String) (r : PortfolioRecord)
    (s : ModalState) (h : portfolioData title = some r) :
    openPortfolioModal title s =
      ⟨r.image, r.imageAlt, r.title, r.description, r.detailedDescription,
        true, true, true⟩ := by
  rw [openPortfolioModal, h]

theorem claim_C5_witness :
    (openPortfolioModal "Project One" initialModalState).titleText =
      "Project One" ∧
    (openPortfolioModal "Project One" initialModalState).active = true := by
  rw [claim_C5_open_populates "Project One" projectOneRecord initialModalState
    (by simp [portfolioData])]
  exact ⟨rfl, rfl⟩

/-- Claim C6: when the title is absent from `portfolioData`, opening
the modal is a silent no-op: the whole modal state (slots, active
flag, scroll suppression) is unchanged. -/
theorem claim_C6_open_miss (title : String) (s : ModalState)
    (h : portfolioData title = none) :
    openPortfolioModal title s = s := by
  rw [openPortfolioModal, h]

theorem claim_C6_witness :
    openPortfolioModal "Project Nine" initialModalState = initialModalState :=
  claim_C6_open_miss "Project Nine" initialModalState (by decide)

/-- Claim C7: `closeModal` always deactivates the overlay and clears
the scroll-suppression flag, and a close followed by an open of a known
title yields exactly the state that open sets (no stale scroll
suppression). -/
theorem claim_C7_close_then_open :
    (∀ s : ModalState,
      (closeModal s).active = false ∧ (closeModal s).bodyOverflowHidden = false) ∧
    (∀ (title : String) (r : PortfolioRecord) (s : ModalState),
      portfolioData title = some r →
      (openPortfolioModal title (closeModal s)).bodyOverflowHidden = true ∧
      openPortfolioModal title (closeModal s) = openPortfolioModal title s) := by
  refine ⟨fun s => ⟨rfl, rfl⟩, ?_⟩
  intro title r s h
  rw [openPortfolioModal, openPortfolioModal, h]
  exact ⟨rfl, rfl⟩

theorem claim_C7_witness :
    (closeModal activeModalState).active = false ∧
    (openPortfolioModal "Project One" (closeModal activeModalState)).bodyOverflowHidden
      = true := by
  exact ⟨(claim_C7_close_then_open.1 activeModalState).1,
    (claim_C7_close_then_open.2 "Project One" projectOneRecord activeModalState
      (by simp [portfolioData])).1⟩

/-- Claim C8: opening the modal twice on the same title leaves exactly
the state of opening it once (idempotence, for hits and misses
alike). -/
theorem claim_C8_open_idempotent (title : String) (s : ModalState) :
    openPortfolioModal title (openPortfolioModal title s) =
      openPortfolioModal title s := by
  cases h : portfolioData title with
  | none => rw [openPortfolioModal, h, openPortfolioModal, h]
  | some d =>
    rw [openPortfolioModal, h]
    rw [openPortfolioModal, h]

/-- Claim C9: pointer activation and keyboard activation (Enter or
Space) of a portfolio item perform exactly the same transition, namely
`openPortfolioModal` on the item's displayed title. -/
theorem claim_C9_keyboard_click_equivalent (title : String) (s : ModalState) :
    portfolioItemKeydown "Enter" title s = openPortfolioModal title s ∧
    portfolioItemKeydown " " title s = openPortfolioModal title s ∧
    portfolioItemClick title s = openPortfolioModal title s :=
  ⟨rfl, rfl, rfl⟩

/-- Claim C10: an Escape keypress closes the modal exactly when the
overlay is active — deactivating it and clearing scroll suppression —
and is a complete no-op when the overlay is inactive. -/
theorem claim_C10_escape_closes (s : ModalState) :
    (s.active = true →
      documentKeydown "Escape" s = closeModal s ∧
      (documentKeydown "Escape" s).active = false ∧
      (documentKeydown "Escape" s).bodyOverflowHidden = false) ∧
    (s.active = false → documentKeydown "Escape" s = s) := by
  constructor
  · intro h
    have hd : documentKeydown "Escape" s = closeModal s := by
      rw [documentKeydown, h]
      rfl
    exact ⟨hd, by rw [hd]; rfl, by rw [hd]; rfl⟩
  · intro h
    rw [documentKeydown, h]
    rfl

theorem claim_C10_witness :
    (documentKeydown "Escape" activeModalState).active = false ∧
    documentKeydown "Escape" initialModalState = initialModalState :=
  ⟨((claim_C10_escape_closes activeModalState).1 rfl).2.1,
    (claim_C10_escape_closes initialModalState).2 rfl⟩
